import Mathlib

/-!
Shallow embedding of the online grammar-driven tokenizer
(`onlineParser` / `getToken` / `pushRule` / `popRule` / `advanceRule` /
`unsuccessful` / `lex`) together with theorems settling the frozen claims.

JavaScript-specific behaviour is modelled explicitly:
* property reads on `undefined` (e.g. `state.rule[state.step].ofRule` when
  `state.step` is out of bounds) are modelled as errors (`Err.undefinedProperty`);
* JS truthiness is modelled where the source branches on it (`''` is falsy,
  arrays — including `[]` — and functions are truthy);
* in-place mutation of the `state` object becomes explicit state passing; the
  `prevState` chain of snapshots becomes a list of saved frames holding exactly
  the fields that `popRule` restores.
-/

set_option maxHeartbeats 1000000

namespace OnlineParserModel

/-- A lexed token: transient `{kind, value}` pair produced by the lexer. -/
structure Token where
  kind : String
  value : String
deriving DecidableEq, Repr

/-- Modelled from the spec: the host-provided character-stream capability
(position query, start-of-line detection, indentation query, pattern-based
consumption).  `src`/`pos` carry the buffer and cursor; `lineStart` and
`indentVal` model the host's line bookkeeping used by `sol()` and
`indentation()`. -/
structure CharacterStream where
  src : List Char
  pos : Nat
  lineStart : Nat := 0
  indentVal : Nat := 0
deriving DecidableEq, Repr

/-- Modelled from the spec: `stream.sol()`, start-of-line detection. -/
def CharacterStream.sol (s : CharacterStream) : Bool :=
  s.pos == s.lineStart

/-- Modelled from the spec: `stream.indentation()`. -/
def CharacterStream.indentation (s : CharacterStream) : Nat :=
  s.indentVal

/-- Modelled from the spec: a lexical pattern (`RegExp` in the source) is an
anchored matcher: given the remaining characters at the cursor it returns the
length of the matched span (possibly `0`, as JS regular expressions may match
the empty string), or `none` when it does not match at the cursor. -/
def Pattern : Type := List Char → Option Nat

/-- Modelled from the spec: `stream.match(pattern)` — anchored match at the
cursor; on success returns the matched text and advances the cursor by the
match length. -/
def CharacterStream.smatch (s : CharacterStream) (p : Pattern) :
    Option (String × CharacterStream) :=
  match p (s.src.drop s.pos) with
  | some n => some (String.mk ((s.src.drop s.pos).take n), { s with pos := s.pos + n })
  | none => none

/-- A Terminal grammar element: `{match, update?, style}`.  Per the spec's data
model the `update` hook mutates the semantic annotations (`state.name`,
`state.type`); it is modelled as a pure function on that pair.  The source
field `match` is a Lean keyword, hence `tmatch`. -/
structure Terminal where
  tmatch : Token → Bool
  update : Option ((Option String × Option String) → Token → (Option String × Option String))
  style : String

/-- A grammar element as inspected by the source: a rule-name string, a
Terminal, or an Optional/List wrapper `{ofRule, isList?, separator?}`. -/
inductive RuleElem where
  | name (s : String)
  | term (t : Terminal)
  | wrap (ofRule : RuleElem) (isList : Bool) (separator : Option RuleElem)

/-- A parse-table entry: an ordered sequence of elements, or a forking rule
`(token, stream) => expected` (resolved only at step 0).  `arity` models the
JS function's `.length`, read by the driver's empty-rule check. -/
inductive RuleBody where
  | arr (elems : List RuleElem)
  | fork (arity : Nat) (f : Token → CharacterStream → Option RuleElem)

/-- JS truthiness of a grammar element: the empty string is falsy, every other
element (object or non-empty string) is truthy. -/
def RuleElem.truthy : RuleElem → Bool
  | .name s => !s.isEmpty
  | _ => true

/-- JS truthiness of an optional element value (`undefined` is falsy). -/
def jsSome : Option RuleElem → Bool
  | some e => e.truthy
  | none => false

/-- The `.ofRule` property: present exactly on Optional/List wrappers. -/
def RuleElem.ofRuleF : RuleElem → Option RuleElem
  | .wrap o _ _ => some o
  | _ => none

/-- The `.separator` property: present (possibly) on wrappers only. -/
def RuleElem.sepF : RuleElem → Option RuleElem
  | .wrap _ _ sp => sp
  | _ => none

/-- The `.isList` property compared to `true` (`undefined === true` is false). -/
def RuleElem.isListF : RuleElem → Bool
  | .wrap _ l _ => l
  | _ => false

/-- JS `.length` of a rule body: array length, or the function's arity. -/
def RuleBody.jsLength : RuleBody → Nat
  | .arr es => es.length
  | .fork a _ => a

/-- The fields of `State` that `pushRule` snapshots and `popRule` restores. -/
structure Frame where
  kind : Option String
  name : Option String
  type : Option String
  rule : Option RuleBody
  step : Nat
  needsSeperator : Bool

/-- The parser working state.  The source's `State` object from `../types` is
not under `src/`; its fields are modelled from the spec's data model (current
rule identity `kind`, semantic annotations `name`/`type`, active `rule` and
`step`, pending-separator flag, deferred-advance flag, indentation level,
bracket-depth stack `levels`, and the `prevState` snapshot chain, here a list
of saved frames).  Initial values are the fresh-session defaults. -/
structure PState where
  kind : Option String := none
  name : Option String := none
  type : Option String := none
  rule : Option RuleBody := none
  step : Nat := 0
  needsSeperator : Bool := false
  needsAdvance : Bool := false
  indentLevel : Int := 0
  levels : Option (List Int) := none
  prevState : List Frame := []

/-- The snapshot of the current frame taken by `pushRule` (`state.clone()`
restricted to the fields `popRule` reads back). -/
def PState.saveFrame (s : PState) : Frame :=
  ⟨s.kind, s.name, s.type, s.rule, s.step, s.needsSeperator⟩

/-- The error conditions the source can raise: `TypeError('Unknown rule: …')`
from `pushRule`, and `TypeError` from reading a property of `undefined`. -/
inductive Err where
  | unknownRule (name : String)
  | undefinedProperty (prop : String)
deriving DecidableEq, Repr

/-- Result of running a step of the (possibly non-terminating) driver:
a value, a raised exception, or divergence / fuel exhaustion. -/
inductive Res (α : Type) where
  | ok (a : α)
  | err (e : Err)
  | spin

/-- JS object property lookup on the rule table `{name: body}`. -/
def lookupRule (rules : List (String × RuleBody)) (k : String) : Option RuleBody :=
  match rules with
  | [] => none
  | (n, b) :: rest => if n = k then some b else lookupRule rest k

/-- `pushRule(rules, state, ruleKind)`: throw on an unknown rule name,
otherwise snapshot the current frame onto `prevState` and install the named
rule as current with `step = 0`, clearing `name`/`type` and the separator
flag. -/
def pushRule (rules : List (String × RuleBody)) (s : PState) (ruleKind : String) :
    Except Err PState :=
  match lookupRule rules ruleKind with
  | none => .error (.unknownRule ruleKind)
  | some b =>
    .ok { s with prevState := s.saveFrame :: s.prevState,
                 kind := some ruleKind, name := none, type := none,
                 rule := some b, step := 0, needsSeperator := false }

/-- `popRule(state)`: no-op when there is no saved frame; otherwise restore
kind/name/type/rule/step/needsSeperator from the snapshot and relink
`prevState` to the grandparent. -/
def popRule (s : PState) : PState :=
  match s.prevState with
  | [] => s
  | f :: rest =>
    { s with kind := f.kind, name := f.name, type := f.type,
             rule := f.rule, step := f.step,
             needsSeperator := f.needsSeperator, prevState := rest }

/-- The element `state.rule[state.step]` when the current rule is an array
(`undefined`, i.e. `none`, when out of bounds or not an array). -/
def stepElem (s : PState) : Option RuleElem :=
  match s.rule with
  | some (.arr es) => es.get? s.step
  | _ => none

/-- `isList(state)`: `Array.isArray(state.rule) && typeof state.rule[state.step]
!== 'string' && state.rule[state.step].isList === true`.  Reading `.isList`
of an `undefined` element (array rule with `step` out of bounds) throws. -/
def isListE (s : PState) : Except Err Bool :=
  match s.rule with
  | some (.arr es) =>
    match es.get? s.step with
    | none => .error (.undefinedProperty "isList")
    | some e => .ok e.isListF
  | _ => .ok false

/-- The truthy value of `state.rule[state.step].separator` (only consulted by
`advanceRule` under an `isList` guard, so the element exists there). -/
def stepSeparator (s : PState) : Option RuleElem :=
  match stepElem s with
  | some e =>
    match e.sepF with
    | some sp => if sp.truthy then some sp else none
    | none => none
  | none => none

/-- The guard of `advanceRule`'s completion loop:
`state.rule && !(Array.isArray(state.rule) && state.step < state.rule.length)`. -/
def ruleExhausted (s : PState) : Bool :=
  match s.rule with
  | none => false
  | some (.arr es) => !(s.step < es.length)
  | some (.fork _ _) => true

/-- The `while` loop at the end of `advanceRule`, with the recursion carried
by a counter that `completeRule` instantiates with the exact length of the
snapshot chain: every iteration of the source loop that continues pops one
frame, so the counter mirrors the chain length and never reaches `0` before
the loop exits (each recursive call passes a state whose chain has exactly the
counter's length). -/
def completeRuleGo : Nat → PState → Res PState := fun fuel s =>
  if ruleExhausted s then
    match s.prevState with
    | [] =>
      match s.rule with
      | some (.arr _) => .err (.undefinedProperty "isList")
      | _ => .spin
    | f :: rest =>
      match fuel with
      | 0 => .spin
      | k + 1 =>
        let s1 : PState :=
          { s with kind := f.kind, name := f.name, type := f.type,
                   rule := f.rule, step := f.step,
                   needsSeperator := f.needsSeperator, prevState := rest }
        match s1.rule with
        | none => completeRuleGo k s1
        | some _ =>
          match isListE s1 with
          | .error e => .err e
          | .ok true =>
            match stepSeparator s1 with
            | some _ => completeRuleGo k { s1 with needsSeperator := !s1.needsSeperator }
            | none => completeRuleGo k s1
          | .ok false => completeRuleGo k { s1 with needsSeperator := false, step := s1.step + 1 }
  else .ok s

/-- The `while` loop at the end of `advanceRule`: while the current rule is
completed, pop it and either re-arm a List parent (toggling its separator flag,
not advancing its step) or advance the parent's step.  When the loop runs with
no saved frame, `popRule` is a no-op and the source either crashes reading
`.isList` of an undefined element (array rule) or loops forever (fork rule);
both outcomes are modelled exactly. -/
def completeRule (s : PState) : Res PState :=
  completeRuleGo s.prevState.length s

/-- `advanceRule(state, successful)`: give a List position the opportunity to
repeat (toggling the pending-separator flag when a separator is declared, with
an early return when an optional separator has just been satisfied), then on
fall-through clear the flag, increment `step`, and run the completion loop. -/
def advanceRule (s : PState) (successful : Bool) : Res PState :=
  match isListE s with
  | .error e => .err e
  | .ok il =>
    if il then
      match stepSeparator s with
      | some separator =>
        let s1 := { s with needsSeperator := !s.needsSeperator }
        if !s1.needsSeperator && jsSome separator.ofRuleF then .ok s1
        else if successful then .ok s1
        else completeRule { s1 with needsSeperator := false, step := s1.step + 1 }
      | none =>
        if successful then .ok s
        else completeRule { s with needsSeperator := false, step := s.step + 1 }
    else completeRule { s with needsSeperator := false, step := s.step + 1 }

/-- The guard of `unsuccessful`'s unwinding loop:
`state.rule && !(Array.isArray(state.rule) && state.rule[state.step].ofRule)`.
Reading `.ofRule` of an `undefined` element throws. -/
def unsuccessfulCond (s : PState) : Except Err Bool :=
  match s.rule with
  | none => .ok false
  | some (.fork _ _) => .ok true
  | some (.arr es) =>
    match es.get? s.step with
    | none => .error (.undefinedProperty "ofRule")
    | some e => .ok (!jsSome e.ofRuleF)

/-- The unwinding loop of `unsuccessful`, fuelled like `completeRuleGo` (the
counter mirrors the chain length exactly). -/
def unsuccessfulLoopGo : Nat → PState → Res PState := fun fuel s =>
  match unsuccessfulCond s with
  | .error e => .err e
  | .ok false => .ok s
  | .ok true =>
    match s.prevState with
    | [] => .spin
    | f :: rest =>
      match fuel with
      | 0 => .spin
      | k + 1 =>
        unsuccessfulLoopGo k
          { s with kind := f.kind, name := f.name, type := f.type,
                   rule := f.rule, step := f.step,
                   needsSeperator := f.needsSeperator, prevState := rest }

/-- The unwinding loop of `unsuccessful`: pop while the guard holds.  With no
saved frame `popRule` is a no-op and the guard re-evaluates identically, so the
source loops forever; modelled as `spin`. -/
def unsuccessfulLoop (s : PState) : Res PState :=
  unsuccessfulLoopGo s.prevState.length s

/-- `unsuccessful(state)`: fall back to the parent rule until an Optional/List
position (a truthy `ofRule`) is found or the stack of rules is exhausted; if a
rule remains, consider it a success so that the parser may move past it
(`advanceRule` with `successful = false`).  It takes no stream argument:
recovery consumes no input. -/
def unsuccessful (s : PState) : Res PState :=
  match unsuccessfulLoop s with
  | .ok s1 => if s1.rule.isSome then advanceRule s1 false else .ok s1
  | .err e => .err e
  | .spin => .spin

/-- `lex(lexRules, stream)`: try each pattern in table order; the first whose
`stream.match` succeeds yields the token `{kind, value}`; `null` otherwise. -/
def lex (lexRules : List (String × Pattern)) (stream : CharacterStream) :
    Option (Token × CharacterStream) :=
  match lexRules with
  | [] => none
  | (k, p) :: rest =>
    match stream.smatch p with
    | some (v, stream1) => some ({ kind := k, value := v }, stream1)
    | none => lex rest stream

/-- The special rule set for comment/invalid sentinel frames. -/
def SpecialParseRules : List (String × RuleBody) :=
  [("Invalid", .arr []), ("Comment", .arr [])]

/-- The parser options record (`eatWhitespace`, `lexRules`, `parseRules`,
`editorConfig.tabSize`).  `eatWhitespace` is the host-configurable predicate;
it returns whether anything was eaten together with the stream it leaves
behind (the source mutates the stream in place). -/
structure ParserOptions where
  eatWhitespace : CharacterStream → Bool × CharacterStream
  lexRules : List (String × Pattern)
  parseRules : List (String × RuleBody)
  tabSize : Option Nat := none

/-- `(editorConfig && editorConfig.tabSize) || 2` (a `tabSize` of `0` is falsy). -/
def effTabSize (tabSize : Option Nat) : Nat :=
  match tabSize with
  | some t => if t == 0 then 2 else t
  | none => 2

/-- The opening phase of `getToken`: pop an empty rule immediately, else
perform a deferred advance requested by a prior terminal. -/
def tokenStart (s : PState) : Res PState :=
  match s.rule with
  | some b =>
    if b.jsLength == 0 then .ok (popRule s)
    else if s.needsAdvance then advanceRule { s with needsAdvance := false } true
    else .ok s
  | none =>
    if s.needsAdvance then advanceRule { s with needsAdvance := false } true
    else .ok s

/-- At the start of a line, recompute the indentation level from the stream's
leading whitespace normalized by the tab size. -/
def solPhase (tabSize : Option Nat) (stream : CharacterStream) (s : PState) : PState :=
  if stream.sol then
    { s with indentLevel := Int.ofNat (stream.indentation / effTabSize tabSize) }
  else s

/-- `/^[{([]/.test(value)`. -/
def isOpenPunct (v : String) : Bool :=
  match v.data with
  | c :: _ => c == '{' || c == '(' || c == '['
  | [] => false

/-- `/^[})\x5d]/.test(value)`. -/
def isClosePunct (v : String) : Bool :=
  match v.data with
  | c :: _ => c == '}' || c == ')' || c == ']'
  | [] => false

/-- Bracket-depth handling for punctuation lexemes: an opening bracket pushes
`indentLevel + 1` on `levels`; a closing bracket pops `levels` and, when the
live indentation level is truthy and the new top is shallower, clamps the live
level down to it. -/
def levelsPhase (tok : Token) (s : PState) : PState :=
  if tok.kind == "Punctuation" then
    if isOpenPunct tok.value then
      { s with levels := some ((s.levels.getD []) ++ [s.indentLevel + 1]) }
    else if isClosePunct tok.value then
      let levels := (s.levels.getD []).dropLast
      let s1 := { s with levels := some levels }
      if s1.indentLevel ≠ 0 then
        match levels.getLast? with
        | some l => if l < s1.indentLevel then { s1 with indentLevel := l } else s1
        | none => s1
      else s1
    else s
  else s

/-- The characters matched by the JS `\s` class (so `\S` is their complement). -/
def jsIsSpace (c : Char) : Bool :=
  c == ' ' || c == '\t' || c == '\n' || c == '\r' || c == '\x0b' || c == '\x0c'

/-- The `/\S+/` pattern used to forcibly skip one run of non-whitespace
characters when no lexical rule matches. -/
def nonSpacePattern : Pattern := fun cs =>
  let r := cs.takeWhile (fun c => !jsIsSpace c)
  if r.length == 0 then none else some r.length

/-- `stream.match(/\S+/)` with the result discarded. -/
def skipInvalid (stream : CharacterStream) : CharacterStream :=
  match stream.smatch nonSpacePattern with
  | some (_, s1) => s1
  | none => stream

/-- `if (expected.ofRule) expected = expected.ofRule` — unwrap an
Optional/List wrapper to its inner element (once, and only when truthy). -/
def unwrapExpected (e : RuleElem) : RuleElem :=
  match e.ofRuleF with
  | some o => if o.truthy then o else e
  | none => e

/-- Resolve the raw "expected" element of the grammar loop: a forking rule is
evaluated only at step 0, a sequential rule is indexed by `step`; when a
separator is pending, `expected = expected && expected.separator`. -/
def resolveExpected (rb : RuleBody) (step : Nat) (needsSeperator : Bool)
    (tok : Token) (stream : CharacterStream) : Option RuleElem :=
  let e0 : Option RuleElem :=
    match rb with
    | .fork _ f => if step == 0 then f tok stream else none
    | .arr es => es.get? step
  if needsSeperator then
    match e0 with
    | some e => if e.truthy then e.sepF else e0
    | none => none
  else e0

/-- Run a Terminal's optional `update` hook on the semantic annotations. -/
def applyUpdate (t : Terminal) (s : PState) (tok : Token) : PState :=
  match t.update with
  | some u =>
    let p := u (s.name, s.type) tok
    { s with name := p.1, type := p.2 }
  | none => s

/-- The `while (state.rule)` grammar-matching loop of `getToken`, with explicit
fuel (the source loop does not terminate for every grammar).  Returns
`ok none` when the loop exhausts the rule stack with no match, and
`ok (some (style, state))` when a Terminal matches. -/
def grammarLoop (parseRules : List (String × RuleBody)) (tok : Token)
    (stream : CharacterStream) : Nat → PState → Res (Option (String × PState))
  | 0, _ => .spin
  | fuel + 1, s =>
    match s.rule with
    | none => .ok none
    | some rb =>
      let onFail : Res (Option (String × PState)) :=
        match unsuccessful s with
        | .ok s1 => grammarLoop parseRules tok stream fuel s1
        | .err e => .err e
        | .spin => .spin
      match resolveExpected rb s.step s.needsSeperator tok stream with
      | none => onFail
      | some e =>
        if e.truthy then
          match unwrapExpected e with
          | .name nm =>
            match pushRule parseRules s nm with
            | .ok s1 => grammarLoop parseRules tok stream fuel s1
            | .error er => .err er
          | .term t =>
            if t.tmatch tok then
              let s1 := applyUpdate t s tok
              if tok.kind == "Punctuation" then
                match advanceRule s1 true with
                | .ok s2 => .ok (some (t.style, s2))
                | .err e2 => .err e2
                | .spin => .spin
              else .ok (some (t.style, { s1 with needsAdvance := true }))
            else onFail
          | .wrap _ _ _ => onFail
        else onFail

/-- The tail of `getToken` once a non-comment lexeme is in hand: bracket-level
bookkeeping, the grammar loop, and on exhaustion the rollback to the pre-level
snapshot plus an `Invalid` sentinel. -/
def getTokenLexed (opts : ParserOptions) (fuel : Nat) (tok : Token)
    (stream2 : CharacterStream) (sB : PState) :
    Res (String × PState × CharacterStream) :=
  if tok.kind == "Comment" then
    match pushRule SpecialParseRules sB "Comment" with
    | .ok sC => .ok ("comment", sC, stream2)
    | .error e => .err e
  else
    let backup := sB
    let sC := levelsPhase tok sB
    match grammarLoop opts.parseRules tok stream2 fuel sC with
    | .ok (some (style, sD)) => .ok (style, sD, stream2)
    | .ok none =>
      match pushRule SpecialParseRules backup "Invalid" with
      | .ok sD => .ok ("invalidchar", sD, stream2)
      | .error e => .err e
    | .err e => .err e
    | .spin => .spin

/-- The tail of `getToken` after whitespace handling declined: lex a token or
forcibly skip one run of non-whitespace characters. -/
def getTokenNoWs (opts : ParserOptions) (fuel : Nat) (stream1 : CharacterStream)
    (sB : PState) : Res (String × PState × CharacterStream) :=
  match lex opts.lexRules stream1 with
  | none =>
    let stream2 := skipInvalid stream1
    match pushRule SpecialParseRules sB "Invalid" with
    | .ok sC => .ok ("invalidchar", sC, stream2)
    | .error e => .err e
  | some (tok, stream2) => getTokenLexed opts fuel tok stream2 sB

/-- `getToken(stream, state, options)` with explicit fuel for the grammar
loop: empty-rule pop / deferred advance, indentation bookkeeping, whitespace
consumption, lexing, comment and invalid sentinels, bracket levels, grammar
matching, and the rollback-plus-Invalid fallback. -/
def getTokenF (opts : ParserOptions) (fuel : Nat) (stream : CharacterStream)
    (s : PState) : Res (String × PState × CharacterStream) :=
  match tokenStart s with
  | .err e => .err e
  | .spin => .spin
  | .ok sA =>
    let sB := solPhase opts.tabSize stream sA
    match opts.eatWhitespace stream with
    | (true, stream1) => .ok ("ws", sB, stream1)
    | (false, stream1) => getTokenNoWs opts fuel stream1 sB

/-- The fresh session state (`new State()`), modelled from the spec. -/
def initialState : PState := {}

/-- `startState()`: a fresh state positioned at the grammar's root rule. -/
def startState (opts : ParserOptions) : Except Err PState :=
  pushRule opts.parseRules initialState "Document"

/-! ### Fixtures used by witness theorems -/

/-- A tiny rule table used by witnesses. -/
def wRules : List (String × RuleBody) := [("R", .arr [])]

/-- A state with distinctive field values, used by witnesses. -/
def c6s : PState :=
  { kind := some "K", name := some "nm", type := none, rule := some (.arr []),
    step := 3, needsSeperator := true, needsAdvance := true,
    indentLevel := 2, levels := some [1], prevState := [] }

/-- The result of pushing rule `R` of `wRules` onto `c6s`. -/
def c6pushed : PState :=
  { kind := some "R", name := none, type := none, rule := some (.arr []),
    step := 0, needsSeperator := false, needsAdvance := true,
    indentLevel := 2, levels := some [1],
    prevState := [⟨some "K", some "nm", none, some (.arr []), 3, true⟩] }

/-- A terminal that never matches, used by fixtures. -/
def wTerm : Terminal := { tmatch := fun _ => false, update := none, style := "w" }

/-- A second terminal, used as a separator in fixtures. -/
def wSep : Terminal := { tmatch := fun _ => false, update := none, style := "sep" }

/-- A state whose current step is a List element with a separator. -/
def c7list : PState :=
  { rule := some (.arr [.wrap (.term wTerm) true (some (.term wSep))]),
    step := 0, needsSeperator := false }

/-- A state whose current step is a plain Terminal element. -/
def c7term : PState :=
  { rule := some (.arr [.term wTerm]), step := 0, needsSeperator := true }

/-- An exhausted child frame over a parent at a List-with-separator step. -/
def c10ex : PState :=
  { kind := some "X", rule := some (.arr [.term wTerm]), step := 1,
    needsSeperator := false,
    prevState :=
      [⟨some "L", none, none,
         some (.arr [.wrap (.term wTerm) true (some (.term wSep))]), 0, false⟩,
       ⟨none, none, none, none, 0, false⟩] }

/-- An exhausted child frame over a parent at a non-List step. -/
def c10ex2 : PState :=
  { kind := some "X", rule := some (.arr [.term wTerm]), step := 1,
    needsSeperator := false,
    prevState :=
      [⟨some "P", none, none, some (.arr [.name "Q", .term wTerm]), 0, false⟩,
       ⟨none, none, none, none, 0, false⟩] }

/-! ### Fixtures for C4 — failure recovery -/

/-- Iterated `popRule`. -/
def popN : Nat → PState → PState
  | 0, s => s
  | k + 1, s => popN k (popRule s)

/-- A state whose top frame rejects (plain Terminal, no `ofRule`) over a
parent stopped at an Optional element. -/
def c4s : PState :=
  { kind := some "X", rule := some (.arr [.term wTerm]), step := 0,
    prevState :=
      [⟨some "O", none, none,
         some (.arr [.wrap (.term wTerm) false none, .term wTerm]), 0, false⟩,
       ⟨none, none, none, none, 0, false⟩] }

/-- The result of recovery from `c4s`: the top frame is popped, the Optional
element is skipped (step advanced past it), nothing else changes. -/
def c4sOut : PState :=
  { kind := some "O", name := none, type := none,
    rule := some (.arr [.wrap (.term wTerm) false none, .term wTerm]), step := 1,
    needsSeperator := false,
    prevState := [⟨none, none, none, none, 0, false⟩] }

/-! ### Fixtures for C1, C2, C9, C8 and C3 -/

/-- The rule names referenced by a grammar element (through wrappers and
separators). -/
def elemNames : RuleElem → List String
  | .name n => [n]
  | .term _ => []
  | .wrap o _ none => elemNames o
  | .wrap o _ (some sp) => elemNames o ++ elemNames sp

/-- The rule names referenced by a sequential rule body. -/
def bodyNames : RuleBody → List String
  | .arr es => es.flatMap elemNames
  | .fork _ _ => []

/-- A terminal that rejects every token. -/
def c1T : Terminal := { tmatch := fun _ => false, update := none, style := "t" }

/-- The C1 grammar: `Document = [List(X)]`, `X = [Optional(T)]` — no cycle of
name references (Document references only X; X references no rule), yet the
List element X can complete by matching nothing. -/
def c1Rules : List (String × RuleBody) :=
  [("Document", .arr [.wrap (.name "X") true none]),
   ("X", .arr [.wrap (.term c1T) false none])]

/-- A lexical table whose single pattern consumes one character. -/
def c1Lex : List (String × Pattern) := [("Name", fun _ => some 1)]

/-- The C1 parser options. -/
def c1Opts : ParserOptions :=
  { eatWhitespace := fun s => (false, s), lexRules := c1Lex, parseRules := c1Rules }

/-- A one-character stream. -/
def c1Stream : CharacterStream := { src := ['a'], pos := 0 }

/-- The state produced by `startState` for the C1 grammar. -/
def c1State : PState :=
  { kind := some "Document", rule := some (.arr [.wrap (.name "X") true none]),
    step := 0, prevState := [⟨none, none, none, none, 0, false⟩] }

/-- The token the lexer produces from `c1Stream` (kind `Name`, value `a`). -/
def c1Tok : Token := { kind := "Name", value := "a" }

/-- The stream after lexing one character. -/
def c1Stream2 : CharacterStream := { src := ['a'], pos := 1 }

/-- The state after the grammar loop pushes rule `X`: one loop iteration later
(`X`'s Optional terminal rejects, recovery pops `X` and re-arms the List
without advancing it) the loop is back at `c1State` — a cycle that consumes no
input and never exits. -/
def c1Mid : PState :=
  { kind := some "X", name := none, type := none,
    rule := some (.arr [.wrap (.term c1T) false none]), step := 0,
    needsSeperator := false,
    prevState := [⟨some "Document", none, none,
                    some (.arr [.wrap (.name "X") true none]), 0, false⟩,
                  ⟨none, none, none, none, 0, false⟩] }

/-- The C2 grammar: every referenced rule name is present (`Document`
references only `Foo`, which the table defines), but `Foo`'s body is the empty
sequence. -/
def c2Rules : List (String × RuleBody) :=
  [("Document", .arr [.name "Foo"]), ("Foo", .arr [])]

/-- The C2 parser options. -/
def c2Opts : ParserOptions :=
  { eatWhitespace := fun s => (false, s), lexRules := c1Lex, parseRules := c2Rules }

/-- The state produced by `startState` for the C2 grammar. -/
def c2State : PState :=
  { kind := some "Document", rule := some (.arr [.name "Foo"]), step := 0,
    prevState := [⟨none, none, none, none, 0, false⟩] }

/-- The state after the grammar loop pushes the empty rule `Foo`: the next
iteration resolves `state.rule[0]` of the empty array to `undefined`, calls
`unsuccessful`, and the recovery guard reads `.ofRule` of `undefined`. -/
def c2Foo : PState :=
  { kind := some "Foo", name := none, type := none, rule := some (.arr []),
    step := 0, needsSeperator := false,
    prevState := [⟨some "Document", none, none, some (.arr [.name "Foo"]), 0, false⟩,
                  ⟨none, none, none, none, 0, false⟩] }

/-- A pattern that matches the empty string at every cursor position. -/
def c9PA : Pattern := fun _ => some 0

/-- A pattern that consumes one character whenever one remains. -/
def c9PB : Pattern := fun cs =>
  match cs with
  | _ :: _ => some 1
  | [] => none

/-- A lex table whose first entry matches only the empty prefix. -/
def c9Table : List (String × Pattern) := [("A", c9PA), ("B", c9PB)]

/-- A one-character stream for the C9 counterexample. -/
def c9Stream : CharacterStream := { src := ['a'], pos := 0 }

/-- A terminal matching any token of kind `Name`. -/
def c8T : Terminal := { tmatch := fun t => t.kind == "Name", update := none, style := "atom" }

/-- A terminal matching the opening-brace punctuator. -/
def c8P : Terminal := { tmatch := fun t => t.value == "\x7b", update := none, style := "punc" }

/-- A state expecting the `Name` terminal. -/
def c8s : PState :=
  { kind := some "Document", rule := some (.arr [.term c8T]), step := 0,
    prevState := [⟨none, none, none, none, 0, false⟩] }

/-- A state expecting the punctuator terminal. -/
def c8sp : PState :=
  { kind := some "Document", rule := some (.arr [.term c8P]), step := 0,
    prevState := [⟨none, none, none, none, 0, false⟩] }

/-- The punctuation token `{`. -/
def c8tokP : Token := { kind := "Punctuation", value := "\x7b" }

/-- A sentinel-topped state with a pending deferred advance. -/
def c8inv : PState :=
  { kind := some "Invalid", rule := some (.arr []), step := 0, needsAdvance := true,
    prevState := [⟨some "Document", none, none, some (.arr [.term c8T]), 0, false⟩] }

/-- A state with a pending deferred advance and a non-empty rule. -/
def c8adv : PState :=
  { kind := some "Document", rule := some (.arr [.term c8T]), step := 0,
    needsAdvance := true,
    prevState := [⟨none, none, none, none, 0, false⟩] }

/-- A grammar whose single terminal rejects every token. -/
def c3Rules : List (String × RuleBody) := [("Document", .arr [.term wTerm])]

/-- The C3 parser options. -/
def c3Opts : ParserOptions :=
  { eatWhitespace := fun s => (false, s), lexRules := c1Lex, parseRules := c3Rules }

/-- The state produced by `startState` for the C3 grammar. -/
def c3State : PState :=
  { kind := some "Document", rule := some (.arr [.term wTerm]), step := 0,
    prevState := [⟨none, none, none, none, 0, false⟩] }

/-! ### Theorems settling the claims -/

/-! ### C5 — pushRule -/

/-- C5: `pushRule(rules, state, name)` throws the UnknownGrammarRule condition
(`TypeError('Unknown rule: …')`) iff `name` is absent from the given table;
otherwise it snapshots the current frame onto `prevState`, installs the named
rule with `step = 0`, clears `name`/`type`, and resets the separator flag. -/
theorem c5_pushRule_spec (rules : List (String × RuleBody)) (s : PState) (n : String) :
    (lookupRule rules n = none → pushRule rules s n = .error (.unknownRule n)) ∧
    (∀ b, lookupRule rules n = some b →
      pushRule rules s n =
        .ok { s with prevState := s.saveFrame :: s.prevState,
                     kind := some n, name := none, type := none,
                     rule := some b, step := 0, needsSeperator := false }) := by
  constructor
  · intro h; simp [pushRule, h]
  · intro b h; simp [pushRule, h]

/-- Witness for C5 at concrete inputs: an absent name throws, a present name
installs the rule. -/
theorem c5_pushRule_spec_witness :
    (lookupRule wRules "Q" = none ∧
      pushRule wRules c6s "Q" = .error (.unknownRule "Q")) ∧
    (lookupRule wRules "R" = some (.arr []) ∧
      pushRule wRules c6s "R" = .ok c6pushed) := by
  refine ⟨⟨rfl, (c5_pushRule_spec wRules c6s "Q").1 rfl⟩,
          ⟨rfl, ?_⟩⟩
  have h := (c5_pushRule_spec wRules c6s "R").2 (.arr []) rfl
  exact h

/-! ### C6 — push/pop roundtrip -/

/-- C6: a successful `pushRule` followed by `popRule` restores kind, name,
type, rule, step, the separator-pending flag and the `prevState` link exactly
to their pre-push values (here: the whole state is restored), `indentLevel`,
`levels` and `needsAdvance` are unchanged throughout (also in the pushed
state), and `popRule` on a state with no saved frame is a no-op. -/
theorem c6_push_pop_roundtrip (rules : List (String × RuleBody)) (s : PState)
    (n : String) (s' : PState) (h : pushRule rules s n = .ok s') :
    popRule s' = s ∧
    s'.indentLevel = s.indentLevel ∧ s'.levels = s.levels ∧
    s'.needsAdvance = s.needsAdvance ∧
    (∀ t : PState, t.prevState = [] → popRule t = t) := by
  unfold pushRule at h
  cases hl : lookupRule rules n with
  | none => rw [hl] at h; cases h
  | some b =>
    rw [hl] at h
    have hs' : s' = { s with prevState := s.saveFrame :: s.prevState,
                             kind := some n, name := none, type := none,
                             rule := some b, step := 0, needsSeperator := false } := by
      cases h; rfl
    subst hs'
    refine ⟨?_, rfl, rfl, rfl, ?_⟩
    · simp [popRule, PState.saveFrame]
    · intro t ht
      unfold popRule
      rw [ht]

/-- Witness for C6 at concrete inputs. -/
theorem c6_push_pop_roundtrip_witness :
    popRule c6pushed = c6s ∧ popRule initialState = initialState := by
  have h := c6_push_pop_roundtrip wRules c6s "R" c6pushed rfl
  exact ⟨h.1, h.2.2.2.2 initialState rfl⟩

/-! ### C7 — advanceRule after a successful match at a List position -/

/-- C7: when the current step is a List element, `advanceRule` after a
successful match toggles the separator-pending flag iff the List declares a
separator, and returns without incrementing `step` (the optional-separator
early return and the `successful` return land on the same state); in every
other case (not a List position) the separator flag is cleared, `step` is
incremented, and the completion loop pops exhausted frames and bubbles
completion to parent frames. -/
theorem c7_advanceRule_list (s : PState) :
    (isListE s = .ok true →
      advanceRule s true =
        .ok { s with needsSeperator :=
                match stepSeparator s with
                | some _ => !s.needsSeperator
                | none => s.needsSeperator }) ∧
    (isListE s = .ok false →
      advanceRule s true =
        completeRule { s with needsSeperator := false, step := s.step + 1 }) := by
  constructor
  · intro h
    simp only [advanceRule, h]
    cases hsp : stepSeparator s with
    | none => simp
    | some sp => split <;> simp_all
  · intro h
    simp only [advanceRule, h]
    simp

/-- Witness for C7 at concrete inputs: the List-with-separator case toggles
the flag without advancing; the non-List case advances through the completion
loop. -/
theorem c7_advanceRule_list_witness :
    advanceRule c7list true = .ok { c7list with needsSeperator := true } ∧
    advanceRule c7term true =
      completeRule { c7term with needsSeperator := false, step := 1 } := by
  exact ⟨(c7_advanceRule_list c7list).1 rfl, (c7_advanceRule_list c7term).2 rfl⟩

/-! ### C10 — completion bubbling re-arms List parents -/

/-- One unfolding of the completion loop when the chain is non-empty. -/
theorem completeRule_cons (s : PState) (f : Frame) (rest : List Frame)
    (hex : ruleExhausted s = true) (hch : s.prevState = f :: rest) :
    completeRule s =
      (match (popRule s).rule with
       | none => completeRule (popRule s)
       | some _ =>
         match isListE (popRule s) with
         | .error e => .err e
         | .ok true =>
           match stepSeparator (popRule s) with
           | some _ =>
             completeRule { popRule s with needsSeperator := !(popRule s).needsSeperator }
           | none => completeRule (popRule s)
         | .ok false =>
           completeRule { popRule s with needsSeperator := false,
                                         step := (popRule s).step + 1 }) := by
  have hpop : popRule s =
      { s with kind := f.kind, name := f.name, type := f.type,
               rule := f.rule, step := f.step,
               needsSeperator := f.needsSeperator, prevState := rest } := by
    simp [popRule, hch]
  rw [hpop]
  show completeRuleGo s.prevState.length s = _
  rw [completeRuleGo.eq_def, hch]
  simp [hex, completeRule]

/-- Shape of the state when `isList` evaluates without throwing. -/
theorem isListE_ok_shape (t : PState) (b : Bool) (h : isListE t = .ok b) :
    t.rule = none ∨ (∃ a f, t.rule = some (.fork a f)) ∨
    (∃ es e, t.rule = some (.arr es) ∧ es.get? t.step = some e ∧ e.isListF = b) := by
  unfold isListE at h
  split at h
  · next es heq =>
    split at h
    · cases h
    · next e hg =>
      refine Or.inr (Or.inr ⟨es, e, heq, hg, ?_⟩)
      cases h
      rfl
  · next x hne =>
    cases hr : t.rule with
    | none => exact Or.inl rfl
    | some rb =>
      cases rb with
      | arr es => exact absurd hr (hne es)
      | fork a f => exact Or.inr (Or.inl ⟨a, f, rfl⟩)

/-- C10: in `advanceRule`'s completion loop, popping an exhausted frame that
exposes a parent at a List step that declares a separator toggles the parent's
separator-pending flag while leaving its step unchanged; a parent at a
non-List step instead has its separator flag cleared and its step
incremented (a List step without a separator is left exactly as restored). -/
theorem c10_completeRule_bubbling (s : PState) (hex : ruleExhausted s = true)
    (hne : s.prevState ≠ []) :
    (isListE (popRule s) = .ok true → (stepSeparator (popRule s)).isSome →
      completeRule s =
        completeRule { popRule s with needsSeperator := !(popRule s).needsSeperator }) ∧
    (isListE (popRule s) = .ok true → stepSeparator (popRule s) = none →
      completeRule s = completeRule (popRule s)) ∧
    ((popRule s).rule.isSome → isListE (popRule s) = .ok false →
      completeRule s =
        completeRule { popRule s with needsSeperator := false,
                                      step := (popRule s).step + 1 }) := by
  obtain ⟨f, rest, hch⟩ : ∃ f rest, s.prevState = f :: rest := by
    cases hc : s.prevState with
    | nil => exact absurd hc hne
    | cons f rest => exact ⟨f, rest, rfl⟩
  have hrw := completeRule_cons s f rest hex hch
  refine ⟨?_, ?_, ?_⟩
  · intro hl hsp
    have hsh := isListE_ok_shape (popRule s) true hl
    rcases hsh with hr | ⟨a, g, hr⟩ | ⟨es, e, hr, hg, hll⟩
    · simp [isListE, hr] at hl
    · simp [isListE, hr] at hl
    · rw [hrw]
      simp only [hr, hl]
      cases hsp' : stepSeparator (popRule s) with
      | none => rw [hsp'] at hsp; cases hsp
      | some sp => rfl
  · intro hl hsp
    have hsh := isListE_ok_shape (popRule s) true hl
    rcases hsh with hr | ⟨a, g, hr⟩ | ⟨es, e, hr, hg, hll⟩
    · simp [isListE, hr] at hl
    · simp [isListE, hr] at hl
    · rw [hrw]
      simp only [hr, hl, hsp]
  · intro hr hl
    cases hr' : (popRule s).rule with
    | none => simp [hr'] at hr
    | some b =>
      rw [hrw]
      simp only [hr', hl]

/-- Witness for C10 at concrete inputs: a List-with-separator parent is
re-armed with its flag toggled and step kept; a non-List parent is advanced. -/
theorem c10_completeRule_bubbling_witness :
    completeRule c10ex =
      completeRule { popRule c10ex with
                     needsSeperator := !(popRule c10ex).needsSeperator } ∧
    completeRule c10ex2 =
      completeRule { popRule c10ex2 with needsSeperator := false,
                                         step := (popRule c10ex2).step + 1 } := by
  constructor
  · exact (c10_completeRule_bubbling c10ex rfl (by simp [c10ex])).1 rfl rfl
  · exact (c10_completeRule_bubbling c10ex2 rfl (by simp [c10ex2])).2.2 rfl rfl

theorem unsuccessfulLoop_cond_false (s : PState)
    (hc : unsuccessfulCond s = .ok false) : unsuccessfulLoop s = .ok s := by
  unfold unsuccessfulLoop
  rw [unsuccessfulLoopGo.eq_def]
  split
  · next heq => rw [hc] at heq; cases heq
  · rfl
  · next heq => rw [hc] at heq; cases heq

theorem unsuccessfulLoop_cond_err (s : PState) (e : Err)
    (hc : unsuccessfulCond s = .error e) : unsuccessfulLoop s = .err e := by
  unfold unsuccessfulLoop
  rw [unsuccessfulLoopGo.eq_def]
  split
  · next e2 heq => rw [hc] at heq; cases heq; rfl
  · next heq => rw [hc] at heq; cases heq
  · next heq => rw [hc] at heq; cases heq

theorem unsuccessfulLoop_nil_spin (s : PState)
    (hc : unsuccessfulCond s = .ok true) (hch : s.prevState = []) :
    unsuccessfulLoop s = .spin := by
  unfold unsuccessfulLoop
  rw [unsuccessfulLoopGo.eq_def, hch]
  split
  · next heq => rw [hc] at heq; cases heq
  · next heq => rw [hc] at heq; cases heq
  · rfl

theorem unsuccessfulLoop_cond_true_cons (s : PState) (f : Frame) (rest : List Frame)
    (hc : unsuccessfulCond s = .ok true) (hch : s.prevState = f :: rest) :
    unsuccessfulLoop s = unsuccessfulLoop (popRule s) := by
  have hpop : popRule s =
      { s with kind := f.kind, name := f.name, type := f.type,
               rule := f.rule, step := f.step,
               needsSeperator := f.needsSeperator, prevState := rest } := by
    simp [popRule, hch]
  unfold unsuccessfulLoop
  rw [unsuccessfulLoopGo.eq_def, hch, hpop, hc]
  simp

theorem unsuccessfulLoop_ok_spec (n : Nat) :
    ∀ s t : PState, s.prevState.length = n → unsuccessfulLoop s = .ok t →
      ∃ k, (∀ j < k, unsuccessfulCond (popN j s) = .ok true) ∧
        unsuccessfulCond (popN k s) = .ok false ∧ t = popN k s := by
  induction n using Nat.strong_induction_on with
  | _ n ih =>
    intro s t hlen h
    cases hc : unsuccessfulCond s with
    | error e =>
      rw [unsuccessfulLoop_cond_err s e hc] at h
      cases h
    | ok b =>
      cases b with
      | false =>
        rw [unsuccessfulLoop_cond_false s hc] at h
        refine ⟨0, by omega, hc, ?_⟩
        cases h; rfl
      | true =>
        cases hch : s.prevState with
        | nil =>
          rw [unsuccessfulLoop_nil_spin s hc hch] at h
          cases h
        | cons f rest =>
          rw [unsuccessfulLoop_cond_true_cons s f rest hc hch] at h
          have hlen1 : (popRule s).prevState.length = rest.length := by
            simp [popRule, hch]
          have hlt : rest.length < n := by
            rw [← hlen, hch]; simp
          obtain ⟨k, hall, hstop, ht⟩ := ih rest.length hlt (popRule s) t hlen1 h
          refine ⟨k + 1, ?_, hstop, ht⟩
          intro j hj
          cases j with
          | zero => exact hc
          | succ i => exact hall i (by omega)

theorem unsuccessfulCond_false_shape (t : PState)
    (h : unsuccessfulCond t = .ok false) :
    t.rule = none ∨
    ∃ es e, t.rule = some (.arr es) ∧ es.get? t.step = some e ∧
      jsSome e.ofRuleF = true := by
  unfold unsuccessfulCond at h
  split at h
  · exact Or.inl (by assumption)
  · next a f heq => cases h
  · next es heq =>
    split at h
    · cases h
    · next e hg =>
      refine Or.inr ⟨es, e, heq, hg, ?_⟩
      have : (!jsSome e.ofRuleF) = false := by
        injection h
      simp at this
      exact this

/-- C4: a failed match (`unsuccessful`) pops frames from the rule stack until
either the stack is empty (`state.rule` is null) or the top frame's current
position has a truthy `ofRule` wrapper (an Optional/List element); in the
latter case that element is treated as satisfied by zero occurrences and
advanced past via `advanceRule` with `successful = false`.  `unsuccessful`
takes no stream argument, so recovery consumes no input from the stream. -/
theorem c4_unsuccessful_spec (s s' : PState) (h : unsuccessful s = .ok s') :
    ∃ k, (∀ j < k, unsuccessfulCond (popN j s) = .ok true) ∧
      unsuccessfulCond (popN k s) = .ok false ∧
      (((popN k s).rule = none ∧ s' = popN k s) ∨
       (∃ es e, (popN k s).rule = some (.arr es) ∧
          es.get? (popN k s).step = some e ∧ jsSome e.ofRuleF = true ∧
          advanceRule (popN k s) false = .ok s')) := by
  unfold unsuccessful at h
  cases hl : unsuccessfulLoop s with
  | ok s1 =>
    rw [hl] at h
    obtain ⟨k, hall, hstop, ht⟩ :=
      unsuccessfulLoop_ok_spec s.prevState.length s s1 rfl hl
    subst ht
    have h2 : (if (popN k s).rule.isSome then advanceRule (popN k s) false
               else .ok (popN k s)) = .ok s' := h
    refine ⟨k, hall, hstop, ?_⟩
    rcases unsuccessfulCond_false_shape _ hstop with hnone | ⟨es, e, hr, hg, hof⟩
    · left
      refine ⟨hnone, ?_⟩
      rw [hnone] at h2
      simp at h2
      exact h2.symm
    · right
      refine ⟨es, e, hr, hg, hof, ?_⟩
      rw [hr] at h2
      simp at h2
      exact h2
  | err e => rw [hl] at h; cases h
  | spin => rw [hl] at h; cases h

/-- Witness for C4 at a concrete input. -/
theorem c4_unsuccessful_spec_witness :
    ∃ k, (∀ j < k, unsuccessfulCond (popN j c4s) = .ok true) ∧
      unsuccessfulCond (popN k c4s) = .ok false ∧
      (((popN k c4s).rule = none ∧ c4sOut = popN k c4s) ∨
       (∃ es e, (popN k c4s).rule = some (.arr es) ∧
          es.get? (popN k c4s).step = some e ∧ jsSome e.ofRuleF = true ∧
          advanceRule (popN k c4s) false = .ok c4sOut)) :=
  c4_unsuccessful_spec c4s c4sOut rfl

/-- C1 (code bug): on the cycle-free grammar `c1Rules` (the only name
reference is Document → X), starting from the state `startState` produces, on
a non-empty stream whose token every Terminal rejects, `getToken` never
returns for any amount of fuel: the grammar loop re-enters the same state
every two iterations (`pushRule X`, then recovery re-arms the List without
advancing it), so the source's `while (state.rule)` loop runs forever even
though the stream was already advanced by the lexer.  This contradicts the
claim (and the spec's guarantee) that every call terminates and advances the
stream under grammar tables with no cycle of name references. -/
theorem c1_getToken_diverges :
    bodyNames (.arr [.wrap (.name "X") true none]) = ["X"] ∧
    bodyNames (.arr [.wrap (.term c1T) false none]) = [] ∧
    startState c1Opts = .ok c1State ∧
    ∀ fuel : Nat, getTokenF c1Opts fuel c1Stream c1State = .spin := by
  refine ⟨rfl, rfl, rfl, ?_⟩
  have hstep : ∀ n : Nat,
      grammarLoop c1Rules c1Tok c1Stream2 n c1State = .spin ∧
      grammarLoop c1Rules c1Tok c1Stream2 n c1Mid = .spin := by
    intro n
    induction n with
    | zero => exact ⟨rfl, rfl⟩
    | succ k ih =>
      constructor
      · have h1 : grammarLoop c1Rules c1Tok c1Stream2 (k + 1) c1State =
            grammarLoop c1Rules c1Tok c1Stream2 k c1Mid := rfl
        rw [h1]
        exact ih.2
      · have h2 : grammarLoop c1Rules c1Tok c1Stream2 (k + 1) c1Mid =
            grammarLoop c1Rules c1Tok c1Stream2 k c1State := rfl
        rw [h2]
        exact ih.1
  intro fuel
  have hred : getTokenF c1Opts fuel c1Stream c1State =
      (match grammarLoop c1Rules c1Tok c1Stream2 fuel c1State with
       | .ok (some (style, sD)) => .ok (style, sD, c1Stream2)
       | .ok none =>
         match pushRule SpecialParseRules c1State "Invalid" with
         | .ok sD => .ok ("invalidchar", sD, c1Stream2)
         | .error e => .err e
       | .err e => .err e
       | .spin => .spin) := rfl
  rw [hred, (hstep fuel).1]

/-- C2 (code bug): with every referenced rule name present in its table
(`Document` references only `Foo`, present; `Invalid`/`Comment` are present in
`SpecialParseRules`), `getToken` on the state produced by `startState` throws
a `TypeError`: when the referenced rule's body is the empty sequence, the
recovery loop in `unsuccessful` reads `.ofRule` of the undefined element
`state.rule[state.step]` of the empty array — exactly the event the claim
rules out.  The crash occurs for every fuel budget of at least two loop
iterations (the error, not fuel exhaustion, is the outcome). -/
theorem c2_getToken_crashes :
    bodyNames (.arr [.name "Foo"]) = ["Foo"] ∧
    (lookupRule c2Rules "Foo").isSome = true ∧
    (lookupRule c2Rules "Document").isSome = true ∧
    bodyNames (.arr []) = [] ∧
    (lookupRule SpecialParseRules "Invalid").isSome = true ∧
    (lookupRule SpecialParseRules "Comment").isSome = true ∧
    startState c2Opts = .ok c2State ∧
    ∀ fuel : Nat, getTokenF c2Opts (fuel + 2) c1Stream c2State =
      .err (.undefinedProperty "ofRule") := by
  refine ⟨rfl, rfl, rfl, rfl, rfl, rfl, rfl, ?_⟩
  intro fuel
  have hred : getTokenF c2Opts (fuel + 2) c1Stream c2State =
      (match grammarLoop c2Rules c1Tok c1Stream2 (fuel + 2) c2State with
       | .ok (some (style, sD)) => .ok (style, sD, c1Stream2)
       | .ok none =>
         match pushRule SpecialParseRules c2State "Invalid" with
         | .ok sD => .ok ("invalidchar", sD, c1Stream2)
         | .error e => .err e
       | .err e => .err e
       | .spin => .spin) := rfl
  have h1 : grammarLoop c2Rules c1Tok c1Stream2 (fuel + 2) c2State =
      grammarLoop c2Rules c1Tok c1Stream2 (fuel + 1) c2Foo := rfl
  have h2 : grammarLoop c2Rules c1Tok c1Stream2 (fuel + 1) c2Foo =
      .err (.undefinedProperty "ofRule") := rfl
  rw [hred, h1, h2]

/-! ### C9 — the lexer -/

theorem smatch_some_shape (stream : CharacterStream) (p : Pattern) (v : String)
    (s' : CharacterStream) (h : stream.smatch p = some (v, s')) :
    ∃ n, p (stream.src.drop stream.pos) = some n ∧
      v = String.mk ((stream.src.drop stream.pos).take n) ∧
      s' = { stream with pos := stream.pos + n } := by
  unfold CharacterStream.smatch at h
  split at h
  · next n hn =>
    refine ⟨n, hn, ?_⟩
    have := Option.some.inj h
    rw [Prod.mk.injEq] at this
    exact ⟨this.1.symm, this.2.symm⟩
  · cases h

/-- C9 (amended): `lex` tries the patterns in table order and returns the
token `{kind, value}` built from the first pattern that matches at the cursor
— advancing the stream by the match length, which may be zero for a pattern
matching the empty string — and returns null when no pattern matches; earlier
table entries win over later ones for the same input. -/
theorem c9_lex_spec (table : List (String × Pattern)) (stream : CharacterStream) :
    (lex table stream = none ↔ ∀ q ∈ table, stream.smatch q.2 = none) ∧
    (∀ tok stream', lex table stream = some (tok, stream') →
      ∃ pre p post, table = pre ++ (tok.kind, p) :: post ∧
        (∀ q ∈ pre, stream.smatch q.2 = none) ∧
        stream.smatch p = some (tok.value, stream') ∧
        ∃ n, p (stream.src.drop stream.pos) = some n ∧
          stream'.pos = stream.pos + n) := by
  induction table with
  | nil =>
    constructor
    · simp [lex]
    · intro tok stream' h
      cases h
  | cons hd tl ih =>
    obtain ⟨k, p⟩ := hd
    constructor
    · constructor
      · intro h q hq
        unfold lex at h
        cases hm : stream.smatch p with
        | some pr => rw [hm] at h; cases h
        | none =>
          rw [hm] at h
          rcases List.mem_cons.mp hq with hq1 | hq2
          · subst hq1; exact hm
          · exact (ih.1.mp h) q hq2
      · intro hall
        unfold lex
        have hm : stream.smatch p = none := hall (k, p) (List.mem_cons_self _ _)
        rw [hm]
        exact ih.1.mpr fun q hq => hall q (List.mem_cons_of_mem _ hq)
    · intro tok stream' h
      unfold lex at h
      cases hm : stream.smatch p with
      | some pr =>
        obtain ⟨v, s1⟩ := pr
        rw [hm] at h
        have hinj := Option.some.inj h
        rw [Prod.mk.injEq] at hinj
        obtain ⟨htok, hs⟩ := hinj
        subst htok
        subst hs
        refine ⟨[], p, tl, rfl, by simp, hm, ?_⟩
        obtain ⟨n, hn, hv, hs'⟩ := smatch_some_shape stream p v s1 hm
        exact ⟨n, hn, by rw [hs']⟩
      | none =>
        rw [hm] at h
        obtain ⟨pre, p', post, htab, hpre, hp, hn⟩ := ih.2 tok stream' h
        refine ⟨(k, p) :: pre, p', post, by rw [htab]; rfl, ?_, hp, hn⟩
        intro q hq
        rcases List.mem_cons.mp hq with hq1 | hq2
        · subst hq1; exact hm
        · exact hpre q hq2

/-- C9 counterexample: on `c9Table`/`c9Stream`, the first pattern that
consumes a non-empty prefix is `B` (one character), but `lex` returns the
empty-valued token of the earlier zero-length match `A` and does not advance
the stream — so the claim that the returned token is built from the first
pattern consuming a non-empty prefix is false. -/
theorem c9_lex_counterexample :
    c9Stream.smatch c9PA = some ("", c9Stream) ∧
    c9Stream.smatch c9PB = some ("a", { c9Stream with pos := 1 }) ∧
    lex c9Table c9Stream = some ({ kind := "A", value := "" }, c9Stream) ∧
    lex c9Table c9Stream ≠
      some ({ kind := "B", value := "a" }, { c9Stream with pos := 1 }) := by
  refine ⟨rfl, rfl, rfl, ?_⟩
  decide

/-- Witness for C9 at a concrete input (the second conjunct of `c9_lex_spec`
applied to the concrete outcome of `lex` on `c9Table`). -/
theorem c9_lex_spec_witness :
    ∃ pre p post, c9Table = pre ++ (("A" : String), p) :: post ∧
      (∀ q ∈ pre, c9Stream.smatch q.2 = none) ∧
      c9Stream.smatch p = some ("", c9Stream) ∧
      ∃ n, p (c9Stream.src.drop c9Stream.pos) = some n ∧
        c9Stream.pos = c9Stream.pos + n :=
  (c9_lex_spec c9Table c9Stream).2 { kind := "A", value := "" } c9Stream rfl

/-! ### C8 — terminal match: immediate vs deferred advance -/

/-- C8: when the loop's resolved expectation is a Terminal accepted by the
token, the call runs the optional `update` hook and returns the Terminal's
style, advancing the rule within the same call iff the token is punctuation
and otherwise setting `needsAdvance` so that the advance runs at the start of
the next call; at the start of a call, popping an empty rule takes precedence
over the deferred advance, which otherwise runs with the flag cleared. -/
theorem c8_terminal_sealing (tbl : List (String × RuleBody)) (tok : Token)
    (stream : CharacterStream) (fuel : Nat) (s : PState) (rb : RuleBody)
    (hr : s.rule = some rb) (e : RuleElem)
    (hres : resolveExpected rb s.step s.needsSeperator tok stream = some e)
    (htr : e.truthy = true) (t : Terminal) (hun : unwrapExpected e = .term t)
    (hm : t.tmatch tok = true) :
    (∀ s2, tok.kind = "Punctuation" → advanceRule (applyUpdate t s tok) true = .ok s2 →
      grammarLoop tbl tok stream (fuel + 1) s = .ok (some (t.style, s2))) ∧
    (tok.kind ≠ "Punctuation" →
      grammarLoop tbl tok stream (fuel + 1) s =
        .ok (some (t.style, { applyUpdate t s tok with needsAdvance := true }))) ∧
    (∀ u : PState, ∀ b, u.rule = some b → b.jsLength = 0 →
      tokenStart u = .ok (popRule u)) ∧
    (∀ u : PState, ∀ b, u.rule = some b → b.jsLength ≠ 0 → u.needsAdvance = true →
      tokenStart u = advanceRule { u with needsAdvance := false } true) := by
  refine ⟨?_, ?_, ?_, ?_⟩
  · intro s2 hp hadv
    simp only [grammarLoop, hr, hres, htr, if_true, hun, hm]
    simp [hp, hadv]
  · intro hp
    simp only [grammarLoop, hr, hres, htr, if_true, hun, hm]
    simp [hp]
  · intro u b hu hlen
    simp [tokenStart, hu, hlen]
  · intro u b hu hlen hna
    simp [tokenStart, hu, hlen, hna]

/-- Witness for C8 at concrete inputs: a punctuation terminal advances within
the call (here: completing the whole document, leaving the fresh-session
state), a name terminal defers via `needsAdvance`, an empty rule is popped
first even when an advance is pending, and otherwise the pending advance runs
with the flag cleared. -/
theorem c8_terminal_sealing_witness :
    grammarLoop c1Rules c8tokP c1Stream2 1 c8sp = .ok (some ("punc", initialState)) ∧
    grammarLoop c1Rules c1Tok c1Stream2 1 c8s =
      .ok (some ("atom", { c8s with needsAdvance := true })) ∧
    tokenStart c8inv = .ok (popRule c8inv) ∧
    tokenStart c8adv = advanceRule { c8adv with needsAdvance := false } true := by
  refine ⟨?_, ?_, ?_, ?_⟩
  · exact (c8_terminal_sealing c1Rules c8tokP c1Stream2 0 c8sp _ rfl _ rfl rfl c8P rfl
      rfl).1 initialState rfl rfl
  · exact (c8_terminal_sealing c1Rules c1Tok c1Stream2 0 c8s _ rfl _ rfl rfl c8T rfl
      rfl).2.1 (by decide)
  · exact (c8_terminal_sealing c1Rules c1Tok c1Stream2 0 c8s _ rfl _ rfl rfl c8T rfl
      rfl).2.2.1 c8inv (.arr []) rfl rfl
  · exact (c8_terminal_sealing c1Rules c1Tok c1Stream2 0 c8s _ rfl _ rfl rfl c8T rfl
      rfl).2.2.2 c8adv (.arr [.term c8T]) rfl (by decide) rfl

/-! ### C3 — total grammar failure: rollback plus Invalid sentinel -/

/-- C3: when the grammar loop exhausts the rule stack with no Terminal match
(`grammarLoop … = ok none`), `getToken` restores the snapshot taken before
bracket-level handling and grammar matching (the post-`sol` state `solPhase …
sA`, here `Object.assign({}, state)` / `Object.assign(state, backupState)`),
pushes exactly one `Invalid` sentinel frame onto it, and returns
`'invalidchar'`; every state field other than the pushed sentinel frame equals
its pre-attempt value (the record below changes only the frame fields and the
snapshot chain), while the returned stream is the post-lex stream, still
advanced by the lexed token. -/
theorem c3_rollback_invalid (opts : ParserOptions) (fuel : Nat)
    (stream stream1 stream2 : CharacterStream) (s sA : PState) (tok : Token)
    (hst : tokenStart s = .ok sA)
    (hew : opts.eatWhitespace stream = (false, stream1))
    (hlex : lex opts.lexRules stream1 = some (tok, stream2))
    (hcom : tok.kind ≠ "Comment")
    (hloop : grammarLoop opts.parseRules tok stream2 fuel
        (levelsPhase tok (solPhase opts.tabSize stream sA)) = .ok none) :
    getTokenF opts fuel stream s =
      .ok ("invalidchar",
        { solPhase opts.tabSize stream sA with
            prevState := (solPhase opts.tabSize stream sA).saveFrame ::
              (solPhase opts.tabSize stream sA).prevState,
            kind := some "Invalid", name := none, type := none,
            rule := some (.arr []), step := 0, needsSeperator := false },
        stream2) := by
  have h1 : getTokenF opts fuel stream s =
      getTokenNoWs opts fuel stream1 (solPhase opts.tabSize stream sA) := by
    unfold getTokenF
    rw [hst, hew]
  have h2 : getTokenNoWs opts fuel stream1 (solPhase opts.tabSize stream sA) =
      getTokenLexed opts fuel tok stream2 (solPhase opts.tabSize stream sA) := by
    unfold getTokenNoWs
    rw [hlex]
  rw [h1, h2]
  unfold getTokenLexed
  have hcf : (tok.kind == "Comment") = false := by
    simp [hcom]
  rw [hcf]
  simp only [Bool.false_eq_true, if_false]
  rw [hloop]
  rfl

/-- Witness for C3 at a concrete input: the lexed token is rejected by every
position on the rule stack, the grammar state rolls back to the snapshot with
one `Invalid` frame pushed, and the stream stays advanced by the token. -/
theorem c3_rollback_invalid_witness :
    getTokenF c3Opts 5 c1Stream c3State =
      .ok ("invalidchar",
        { solPhase c3Opts.tabSize c1Stream c3State with
            prevState := (solPhase c3Opts.tabSize c1Stream c3State).saveFrame ::
              (solPhase c3Opts.tabSize c1Stream c3State).prevState,
            kind := some "Invalid", name := none, type := none,
            rule := some (.arr []), step := 0, needsSeperator := false },
        c1Stream2) :=
  c3_rollback_invalid c3Opts 5 c1Stream c1Stream c1Stream2 c3State c3State c1Tok
    rfl rfl rfl (by decide) rfl

end OnlineParserModel
